import Mathlib

/-!
Verification of the JobHunt desktop engine supervisor
(`apps/desktop/jobhunt/src-tauri/src/main.rs`).

The supervisor launches a backend "engine" sidecar, discovers its port and
shutdown token from its log lines, and on window close attempts a graceful
shutdown RPC before falling back to killing the child process.

The Rust code is shallowly embedded below: lines of text are `List Char`
(the `chars()` view of the decoded string), byte strings are `List Nat`
(one entry per byte, each < 256), machine integers are `Nat` with explicit
bounds, fallible operations are `Option`/`Except`, and the one shared
mutable record (`EngineState`) is passed explicitly.
-/

namespace JobHunt

/-! ## Log line extractor (`parse_port_from_line`, `parse_shutdown_token_from_line`) -/

/-- The needle `"http://127.0.0.1:"` from `parse_port_from_line`. -/
def portNeedle : List Char := "http://127.0.0.1:".toList

/-- The needle `"shutdown_token="` from `parse_shutdown_token_from_line`. -/
def tokenNeedle : List Char := "shutdown_token=".toList

/-- Embedding of Rust `str::find` for a substring needle: index of the first
position of `hay` at which `needle` occurs, if any. -/
def findSub {α : Type} [BEq α] (hay needle : List α) : Option Nat :=
  if needle.isPrefixOf hay then some 0
  else
    match hay with
    | [] => none
    | _ :: t => (findSub t needle).map (· + 1)

/-- One step of the checked accumulation performed by `str::parse::<u16>`:
multiply by ten and add the next digit, failing (`none`) as soon as the
accumulator would leave the 16-bit range. -/
def parseU16Digits : Nat → List Char → Option Nat
  | acc, [] => some acc
  | acc, c :: cs =>
    if c.isDigit then
      let v := acc * 10 + (c.toNat - 48)
      if v ≤ 65535 then parseU16Digits v cs else none
    else none

/-- Embedding of `str::parse::<u16>().ok()` on the digit strings produced by
`parse_port_from_line` (the empty string is a parse error). -/
def parseU16 (s : List Char) : Option Nat :=
  match s with
  | [] => none
  | _ :: _ => parseU16Digits 0 s

/-- Embedding of `parse_port_from_line`: find `"http://127.0.0.1:"`, take the
maximal run of ASCII digits after it, and parse it as a `u16`. -/
def parse_port_from_line (line : List Char) : Option Nat :=
  match findSub line portNeedle with
  | none => none
  | some i =>
    let rest := line.drop (i + portNeedle.length)
    let digits := rest.takeWhile Char.isDigit
    if digits.isEmpty then none else parseU16 digits

/-- Rust `char::is_whitespace`: the Unicode `White_Space` code points. -/
def isRustWhitespace (c : Char) : Bool :=
  let n := c.toNat
  decide ((9 ≤ n ∧ n ≤ 13) ∨ n = 32 ∨ n = 0x85 ∨ n = 0xA0 ∨ n = 0x1680 ∨
    (0x2000 ≤ n ∧ n ≤ 0x200A) ∨ n = 0x2028 ∨ n = 0x2029 ∨ n = 0x202F ∨
    n = 0x205F ∨ n = 0x3000)

/-- Embedding of Rust `str::trim`: drop leading and trailing whitespace. -/
def rustTrim (s : List Char) : List Char :=
  ((s.dropWhile isRustWhitespace).reverse.dropWhile isRustWhitespace).reverse

/-- Embedding of `parse_shutdown_token_from_line`: find `"shutdown_token="`
and return the trimmed remainder of the line. -/
def parse_shutdown_token_from_line (line : List Char) : Option (List Char) :=
  match findSub line tokenNeedle with
  | none => none
  | some i => some (rustTrim (line.drop (i + tokenNeedle.length)))

/-! ## Substring occurrence, declaratively -/

/-- Predicate: `needle` occurs in `line` starting at position `i`. -/
def occursAt (needle line : List Char) (i : Nat) : Prop :=
  needle.isPrefixOf (line.drop i) = true

/-- Predicate: `needle` occurs somewhere in `line`. -/
def containsSub (needle line : List Char) : Prop :=
  ∃ i, occursAt needle line i

/-- Predicate: `i` is the first position at which `needle` occurs in `line`. -/
def firstOccurAt (needle line : List Char) (i : Nat) : Prop :=
  occursAt needle line i ∧ ∀ j < i, ¬ occursAt needle line j

instance (needle line : List Char) (i : Nat) : Decidable (occursAt needle line i) := by
  unfold occursAt; infer_instance

instance (needle line : List Char) (i : Nat) : Decidable (firstOccurAt needle line i) := by
  unfold firstOccurAt; infer_instance

/-- The numeric value of a run of ASCII digits. -/
def digitsVal (s : List Char) : Nat :=
  s.foldl (fun a c => a * 10 + (c.toNat - 48)) 0

/-! ## Runtime registry (`EngineInfo`, `EngineState`) and the drain task -/

/-- Embedding of `struct EngineInfo { port: Option<u16>, shutdown_token: Option<String> }`. -/
structure EngineInfo where
  port : Option Nat
  shutdown_token : Option (List Char)
deriving DecidableEq, Repr

/-- Embedding of `struct EngineState { child: Mutex<Option<CommandChild>>, info: Mutex<EngineInfo> }`.
The mutexes guard individual field accesses; in this sequential embedding the
fields are accessed directly and the child handle is an abstract `Nat` id. -/
structure EngineState where
  child : Option Nat
  info : EngineInfo
deriving DecidableEq, Repr

/-- The body of the drain task for one decoded line `s`: write a parsed port
and a parsed token (if any) into the registry, as in the
`CommandEvent::Stdout` arm of the `async move` block. -/
def processLine (info : EngineInfo) (s : List Char) : EngineInfo :=
  let info1 :=
    match parse_port_from_line s with
    | some p => { info with port := some p }
    | none => info
  match parse_shutdown_token_from_line s with
  | some t => { info1 with shutdown_token := some t }
  | none => info1

/-- A `tauri_plugin_shell` command event, with payloads already decoded by
`String::from_utf8_lossy`. -/
inductive CommandEvent where
  | stdout (s : List Char)
  | stderr (s : List Char)
  | other
deriving DecidableEq

/-- One iteration of the drain task's `while let Some(event) = rx.recv()` loop:
stdout and stderr lines are parsed identically, other events only logged. -/
def drainStep (info : EngineInfo) (ev : CommandEvent) : EngineInfo :=
  match ev with
  | .stdout s => processLine info s
  | .stderr s => processLine info s
  | .other => info

/-- Embedding of `Option::take` on the mutex-guarded child slot
(`state.child.lock().unwrap().take()`): return the current content and
leave `none` behind. -/
def takeChild {α : Type} (s : Option α) : Option α × Option α := (s, none)

/-- Iterated takes of the child slot (`n` of them): the list of observed results and
the final slot content. -/
def runTakes {α : Type} : Option α → Nat → List (Option α) × Option α
  | s, 0 => ([], s)
  | s, n + 1 =>
    let t := takeChild s
    let r := runTakes t.2 n
    (t.1 :: r.1, r.2)

/-! ## Shutdown RPC (`request_engine_shutdown`) -/

/-- The URL built by `format!("http://127.0.0.1:{}/shutdown", port)`. -/
def shutdownUrl (port : Nat) : String :=
  "http://127.0.0.1:" ++ toString port ++ "/shutdown"

/-- The environment's network behavior: given the request URL and the
`X-Shutdown-Token` header value, either a transport error (`Except.error`)
or an HTTP status code. -/
def Network : Type := String → List Char → Except String Nat

/-- Embedding of `request_engine_shutdown`: POST to the shutdown URL with the
token header; a transport error propagates, a non-2xx status becomes an
error, a 2xx status (reqwest `StatusCode::is_success`) is `Ok`. -/
def request_engine_shutdown (net : Network) (port : Nat) (token : List Char) :
    Except String Unit :=
  match net (shutdownUrl port) token with
  | .error e => .error e
  | .ok status =>
    if 200 ≤ status ∧ status < 300 then .ok ()
    else .error ("shutdown returned HTTP " ++ toString status)

/-! ## Shutdown coordinator (the `on_window_event` closure) -/

/-- Whether the cleanup task spawned on window close kills the child:
`graceful_ok` is set only when port and token are both known and the
shutdown RPC succeeds, and the child is killed iff `!graceful_ok`. -/
def cleanupKilled (net : Network) (port : Option Nat) (token : Option (List Char)) : Bool :=
  match port, token with
  | some p, some t =>
    match request_engine_shutdown net p t with
    | .ok _ => false
    | .error _ => true
  | _, _ => true

/-- Observable actions of a close handler: spawning the cleanup task (with
its kill outcome), suppressing the host's default close, and re-issuing a
programmatic close. The code's handler only ever emits `cleanup`. -/
inductive Action where
  | cleanup (killed : Bool)
  | preventClose
  | requestClose
deriving DecidableEq, Repr

/-- Recognizer: `true` exactly on `Action.cleanup`. -/
def isCleanupAction : Action → Bool
  | .cleanup _ => true
  | _ => false

/-- Embedding of the `on_window_event` closure on a `WindowEvent::Destroyed`
trigger: take the child handle and snapshot port/token; if a child was
obtained, spawn the cleanup task (whose kill decision is `cleanupKilled`).
Nothing is ever written back to the latch-free `EngineState`, and the
handler neither suppresses nor re-issues a close. -/
def onDestroyed (s : EngineState) (net : Network) : EngineState × List Action :=
  let taken := takeChild s.child
  let port := s.info.port
  let token := s.info.shutdown_token
  let s1 : EngineState := { s with child := taken.2 }
  match taken.1 with
  | some _ => (s1, [Action.cleanup (cleanupKilled net port token)])
  | none => (s1, [])

/-- Modelled from the spec: the §4.4 Shutdown Coordinator state, including
the `CloseLatch` (absent from the code's `EngineState`). Used only to
compare the spec's latch-based close protocol with the code's handler. -/
structure SpecCloseState where
  latch : Bool
  child : Option Nat
  info : EngineInfo
deriving DecidableEq, Repr

/-- Modelled from the spec: the §4.4 close-request protocol. On a trigger,
`tryAllowClose` flips the latch; if it was already set the default close
proceeds with no further action, otherwise the default close is suppressed,
the child is taken and cleaned up, and the close is re-issued. -/
def specOnCloseRequested (s : SpecCloseState) (net : Network) :
    SpecCloseState × List Action :=
  if s.latch then (s, [])
  else
    let taken := takeChild s.child
    let s1 : SpecCloseState := { s with latch := true, child := taken.2 }
    match taken.1 with
    | some _ =>
      (s1, [Action.preventClose,
            Action.cleanup (cleanupKilled net s.info.port s.info.shutdown_token),
            Action.requestClose])
    | none => (s1, [Action.preventClose, Action.requestClose])

/-! ## Startup (`setup` closure) and failure absorption -/

/-- The environment-dependent outcomes of the four fallible startup steps in
the `setup` closure, in source order. -/
structure SetupDeps where
  app_data_dir : Except String String
  create_dir_all : Except String Unit
  sidecar : Except String Unit
  spawn : Except String Unit

/-- Embedding of the `setup` closure's fallible prefix: `app_data_dir().unwrap()`,
`create_dir_all(..).unwrap()`, `.sidecar("engine").expect(..)` and
`cmd.spawn().expect(..)` each abort startup (panic) on failure, modelled as
`Except.error` carrying the diagnostic. -/
def runSetup (d : SetupDeps) : Except String Unit :=
  match d.app_data_dir with
  | .error e => .error e
  | .ok _ =>
    match d.create_dir_all with
    | .error e => .error e
    | .ok _ =>
      match d.sidecar with
      | .error _ => .error "failed to create sidecar"
      | .ok _ =>
        match d.spawn with
        | .error _ => .error "failed to spawn engine"
        | .ok _ => .ok ()

/-- Result of the close handler with failure accounting: `fatal` would be an
abort (never produced by the code), `done` records the kill decision and a
kill error that was discarded by `let _ = child.kill()`, `noChild` is the
handler skipping cleanup because the handle was already taken. -/
inductive HandlerResult where
  | fatal (diag : String)
  | done (killed : Bool) (killError : Option String)
  | noChild
deriving DecidableEq, Repr

/-- Recognizer: `true` exactly on `HandlerResult.fatal`. -/
def HandlerResult.isFatal : HandlerResult → Bool
  | .fatal _ => true
  | _ => false

/-- The close handler and its spawned cleanup task with every failure site
made explicit: RPC failures are absorbed into the kill decision, and a kill
failure (`killRes`) is discarded, never escalated. -/
def onDestroyedChecked (s : EngineState) (net : Network)
    (killRes : Except String Unit) : HandlerResult :=
  match s.child with
  | none => .noChild
  | some _ =>
    if cleanupKilled net s.info.port s.info.shutdown_token then
      match killRes with
      | .ok _ => .done true none
      | .error e => .done true (some e)
    else .done false none

/-! ## Byte-level model: UTF-8 boundaries and the extractors' slicing sites

The two extractors slice `&line[idx..]` at a byte index. In Rust this
panics when `idx` is not a character boundary. The definitions below model
the extractors over raw byte lists (`List Nat`, one entry per byte), with
the slice made explicit and the panic represented as the outer `none`. -/

/-- A UTF-8 continuation byte (`0x80..=0xBF`). -/
def isContByte (b : Nat) : Bool := decide (128 ≤ b ∧ b ≤ 191)

/-- Structural well-formedness of a UTF-8 byte string while `n` continuation
bytes are still expected: a leading byte (ASCII, or a two-, three- or
four-byte lead) may appear only when `n = 0` and commits to the matching
number of continuation bytes. -/
def validUTF8Aux : Nat → List Nat → Bool
  | 0, [] => true
  | _ + 1, [] => false
  | 0, b :: rest =>
    if b ≤ 0x7F then validUTF8Aux 0 rest
    else if 0xC0 ≤ b ∧ b ≤ 0xDF then validUTF8Aux 1 rest
    else if 0xE0 ≤ b ∧ b ≤ 0xEF then validUTF8Aux 2 rest
    else if 0xF0 ≤ b ∧ b ≤ 0xF4 then validUTF8Aux 3 rest
    else false
  | n + 1, b :: rest => isContByte b && validUTF8Aux n rest

/-- Structurally well-formed UTF-8: each leading byte is followed by the
matching number of continuation bytes. This is a superset of strict RFC 3629
validity (it does not exclude overlong forms or surrogates), so every valid
UTF-8 byte string — in particular every `String::from_utf8_lossy` output —
satisfies it, and the boundary-safety theorem proved under this hypothesis
covers all of them. -/
def validUTF8 (s : List Nat) : Bool := validUTF8Aux 0 s

/-- Embedding of `str::is_char_boundary`: true at 0 and at the total length,
and otherwise iff the byte at the index is not a continuation byte. -/
def isCharBoundary (s : List Nat) (i : Nat) : Bool :=
  if i = 0 then true
  else
    match s[i]? with
    | none => i == s.length
    | some b => !(isContByte b)

/-- The slice `&s[i..]`: panics (`none`) when `i` is not a character
boundary of `s`. -/
def sliceFrom (s : List Nat) (i : Nat) : Option (List Nat) :=
  if isCharBoundary s i then some (s.drop i) else none

/-- The UTF-8 bytes of the (pure-ASCII) port needle. -/
def portNeedleBytes : List Nat := portNeedle.map Char.toNat

/-- The UTF-8 bytes of the (pure-ASCII) token needle. -/
def tokenNeedleBytes : List Nat := tokenNeedle.map Char.toNat

/-- An ASCII digit byte. -/
def isAsciiDigitByte (b : Nat) : Bool := decide (48 ≤ b ∧ b ≤ 57)

/-- Byte-level counterpart of `parseU16Digits`. -/
def parseU16DigitsBytes : Nat → List Nat → Option Nat
  | acc, [] => some acc
  | acc, b :: bs =>
    if isAsciiDigitByte b then
      let v := acc * 10 + (b - 48)
      if v ≤ 65535 then parseU16DigitsBytes v bs else none
    else none

/-- Byte-level counterpart of `parseU16`. -/
def parseU16Bytes (s : List Nat) : Option Nat :=
  match s with
  | [] => none
  | _ :: _ => parseU16DigitsBytes 0 s

/-- Byte-level `parse_port_from_line` with the slicing site explicit:
the outer `none` is the slice panic, the inner option is the parsed port. -/
def parsePortBytes (line : List Nat) : Option (Option Nat) :=
  match findSub line portNeedleBytes with
  | none => some none
  | some i =>
    match sliceFrom line (i + portNeedleBytes.length) with
    | none => none
    | some rest =>
      let digits := rest.takeWhile isAsciiDigitByte
      some (if digits.isEmpty then none else parseU16Bytes digits)

/-- Byte-level `parse_shutdown_token_from_line` with the slicing site
explicit: the outer `none` is the slice panic; the remainder slice is
returned as-is, since the subsequent `trim().to_string()` is panic-free
(its value-level behavior is `rustTrim` in the character-level model). -/
def parseTokenBytes (line : List Nat) : Option (Option (List Nat)) :=
  match findSub line tokenNeedleBytes with
  | none => some none
  | some i =>
    match sliceFrom line (i + tokenNeedleBytes.length) with
    | none => none
    | some rest => some (some rest)

/-- A concrete engine log line with multibyte characters adjacent to both
markers, as UTF-8 bytes: `é http://127.0.0.1:42π shutdown_token=xé`. -/
def c10WitnessLine : List Nat :=
  [195, 169, 32, 104, 116, 116, 112, 58, 47, 47, 49, 50, 55, 46, 48, 46, 48,
   46, 49, 58, 52, 50, 207, 128, 32, 115, 104, 117, 116, 100, 111, 119, 110,
   95, 116, 111, 107, 101, 110, 61, 120, 195, 169]

/-! ## Lemmas about `findSub` -/

theorem isPrefixOf_iff_exists_append {α : Type} [BEq α] [LawfulBEq α]
    (l₁ l₂ : List α) : l₁.isPrefixOf l₂ = true ↔ ∃ t, l₂ = l₁ ++ t := by
  induction l₁ generalizing l₂ with
  | nil => simp [List.isPrefixOf]
  | cons a as ih =>
    cases l₂ with
    | nil => simp [List.isPrefixOf]
    | cons b bs =>
      simp only [List.isPrefixOf, Bool.and_eq_true, beq_iff_eq, ih, List.cons_append,
        List.cons.injEq]
      constructor
      · rintro ⟨rfl, t, rfl⟩; exact ⟨t, rfl, rfl⟩
      · rintro ⟨t, rfl, rfl⟩; exact ⟨rfl, t, rfl⟩

theorem findSub_some_isPrefixOf {α : Type} [BEq α] {hay needle : List α} {i : Nat}
    (h : findSub hay needle = some i) : needle.isPrefixOf (hay.drop i) = true := by
  induction hay generalizing i with
  | nil =>
    unfold findSub at h
    split at h
    · rename_i hp; cases h; simpa using hp
    · simp at h
  | cons a t ih =>
    unfold findSub at h
    split at h
    · rename_i hp; cases h; simpa using hp
    · simp only [Option.map_eq_some'] at h
      obtain ⟨j, hj, rfl⟩ := h
      simpa using ih hj

theorem findSub_none_not_isPrefixOf {α : Type} [BEq α] {hay needle : List α}
    (h : findSub hay needle = none) :
    ∀ i, needle.isPrefixOf (hay.drop i) = false := by
  induction hay with
  | nil =>
    intro i
    unfold findSub at h
    split at h
    · simp at h
    · rename_i hp; simpa using Bool.of_not_eq_true hp
  | cons a t ih =>
    intro i
    unfold findSub at h
    split at h
    · simp at h
    · rename_i hp
      cases i with
      | zero => simpa using Bool.of_not_eq_true hp
      | succ j =>
        simp only [Option.map_eq_none'] at h
        simpa using ih h j

theorem findSub_min {α : Type} [BEq α] {hay needle : List α} {i : Nat}
    (h : findSub hay needle = some i) :
    ∀ j < i, needle.isPrefixOf (hay.drop j) = false := by
  induction hay generalizing i with
  | nil =>
    unfold findSub at h
    split at h
    · cases h; omega
    · simp at h
  | cons a t ih =>
    unfold findSub at h
    split at h
    · cases h; omega
    · rename_i hp
      simp only [Option.map_eq_some'] at h
      obtain ⟨k, hk, rfl⟩ := h
      intro j hj
      cases j with
      | zero => simpa using Bool.of_not_eq_true hp
      | succ m => simpa using ih hk m (by omega)

theorem findSub_eq_some_of_firstOccurAt {needle line : List Char} {i : Nat}
    (h : firstOccurAt needle line i) : findSub line needle = some i := by
  obtain ⟨hocc, hmin⟩ := h
  cases hfind : findSub line needle with
  | none => exact absurd hocc (by simp [occursAt, findSub_none_not_isPrefixOf hfind i])
  | some j =>
    rcases Nat.lt_trichotomy i j with hlt | rfl | hgt
    · exact absurd hocc (by simp [occursAt, findSub_min hfind i hlt])
    · rfl
    · exact absurd (findSub_some_isPrefixOf hfind) (by
        have := hmin j hgt
        simp only [occursAt] at this
        simpa using this)

theorem not_containsSub_findSub_none {needle line : List Char}
    (h : ¬ containsSub needle line) : findSub line needle = none := by
  cases hfind : findSub line needle with
  | none => rfl
  | some i => exact absurd ⟨i, findSub_some_isPrefixOf hfind⟩ h

theorem not_containsSub_of_findSub_none {needle line : List Char}
    (h : findSub line needle = none) : ¬ containsSub needle line := by
  rintro ⟨i, hi⟩
  have := findSub_none_not_isPrefixOf h i
  simp only [occursAt] at hi
  simp [hi] at this

/-! ## UTF-8 boundary lemmas -/

theorem isCharBoundary_cons_succ (a : Nat) (t : List Nat) (k : Nat) (hk : k ≠ 0) :
    isCharBoundary (a :: t) (k + 1) = isCharBoundary t k := by
  unfold isCharBoundary
  rw [if_neg (by omega), if_neg hk]
  simp [List.getElem?_cons_succ, Nat.succ_inj]

/-- The head of a byte string in leading position is never a continuation
byte: it is ASCII or a leading byte. -/
theorem validUTF8Aux_zero_head_not_cont {c : Nat} {r : List Nat}
    (hv : validUTF8Aux 0 (c :: r) = true) : isContByte c = false := by
  by_contra hcont
  simp only [Bool.not_eq_false] at hcont
  have hrange : 128 ≤ c ∧ c ≤ 191 := of_decide_eq_true hcont
  simp only [validUTF8Aux] at hv
  rw [if_neg (by omega), if_neg (by omega), if_neg (by omega), if_neg (by omega)] at hv
  exact absurd hv (by simp)

/-- Key boundary fact: in a structurally valid UTF-8 byte string (in any
expectation state `n`), the position immediately after an ASCII byte is a
character boundary. -/
theorem validUTF8Aux_ascii_boundary :
    ∀ (s : List Nat) (n : Nat), validUTF8Aux n s = true →
      ∀ i b, s[i]? = some b → b ≤ 127 → isCharBoundary s (i + 1) = true := by
  intro s
  induction s with
  | nil => intro n _ i b hb _; simp at hb
  | cons a t ih =>
    intro n hv i b hb hascii
    match i with
    | 0 =>
      have hab : a = b := by simpa using hb
      match n with
      | 0 =>
        have ha : a ≤ 127 := by omega
        have ht : validUTF8Aux 0 t = true := by
          simp only [validUTF8Aux] at hv
          rwa [if_pos ha] at hv
        unfold isCharBoundary
        rw [if_neg (by omega)]
        cases t with
        | nil => simp
        | cons c r =>
          simp only [List.getElem?_cons_succ, List.getElem?_cons_zero]
          simp [validUTF8Aux_zero_head_not_cont ht]
      | m + 1 =>
        simp only [validUTF8Aux, Bool.and_eq_true] at hv
        have := of_decide_eq_true hv.1
        omega
    | j + 1 =>
      rw [isCharBoundary_cons_succ a t (j + 1) (by omega)]
      match n with
      | 0 =>
        simp only [validUTF8Aux] at hv
        split_ifs at hv with h1 h2 h3 h4
        · exact ih 0 hv j b (by simpa using hb) hascii
        · exact ih 1 hv j b (by simpa using hb) hascii
        · exact ih 2 hv j b (by simpa using hb) hascii
        · exact ih 3 hv j b (by simpa using hb) hascii
      | m + 1 =>
        simp only [validUTF8Aux, Bool.and_eq_true] at hv
        exact ih m hv.2 j b (by simpa using hb) hascii

/-- In a structurally valid UTF-8 byte string, the position immediately
after an ASCII byte is a character boundary. -/
theorem ascii_boundary_succ {s : List Nat} (hv : validUTF8 s = true) :
    ∀ i b, s[i]? = some b → b ≤ 127 → isCharBoundary s (i + 1) = true :=
  validUTF8Aux_ascii_boundary s 0 hv

theorem getElem?_of_isPrefixOf {α : Type} [BEq α] [LawfulBEq α] {nd l : List α}
    {i k : Nat} (h : nd.isPrefixOf (l.drop i) = true) (hk : k < nd.length) :
    l[i + k]? = nd[k]? := by
  obtain ⟨t, ht⟩ := (isPrefixOf_iff_exists_append nd (l.drop i)).mp h
  have h1 : (l.drop i)[k]? = l[i + k]? := List.getElem?_drop l i k
  rw [← h1, ht, List.getElem?_append, if_pos hk]

/-- After any occurrence of a nonempty needle whose last byte is ASCII, the
position just past the needle is a character boundary. -/
theorem boundary_after_ascii_needle {s nd : List Nat} {i : Nat}
    (hv : validUTF8 s = true) (hp : nd.isPrefixOf (s.drop i) = true)
    (hne : nd ≠ []) (hlast : ∀ b, nd[nd.length - 1]? = some b → b ≤ 127) :
    isCharBoundary s (i + nd.length) = true := by
  have hlen : 0 < nd.length := List.length_pos.mpr hne
  have hk : nd.length - 1 < nd.length := by omega
  obtain ⟨b, hb⟩ : ∃ b, nd[nd.length - 1]? = some b := by
    cases hnd : nd[nd.length - 1]? with
    | none => exact absurd hnd (by simp [List.getElem?_eq_none_iff]; omega)
    | some b => exact ⟨b, rfl⟩
  have hs : s[i + (nd.length - 1)]? = some b := by
    rw [getElem?_of_isPrefixOf hp hk, hb]
  have := ascii_boundary_succ hv (i + (nd.length - 1)) b hs (hlast b hb)
  have harith : i + (nd.length - 1) + 1 = i + nd.length := by omega
  rwa [harith] at this

/-! ## Digit-run and `parseU16` lemmas -/

theorem digitsFoldl_mono (s : List Char) :
    ∀ a : Nat, a ≤ s.foldl (fun x c => x * 10 + (c.toNat - 48)) a := by
  induction s with
  | nil => intro a; simp
  | cons c cs ih =>
    intro a
    simp only [List.foldl_cons]
    exact le_trans (by omega) (ih (a * 10 + (c.toNat - 48)))

theorem parseU16Digits_eq (s : List Char) :
    ∀ acc, acc ≤ 65535 → (∀ c ∈ s, c.isDigit = true) →
      parseU16Digits acc s =
        (if s.foldl (fun x c => x * 10 + (c.toNat - 48)) acc ≤ 65535
         then some (s.foldl (fun x c => x * 10 + (c.toNat - 48)) acc) else none) := by
  induction s with
  | nil => intro acc hacc _; simp [parseU16Digits, if_pos hacc]
  | cons c cs ih =>
    intro acc hacc hdig
    have hc : c.isDigit = true := hdig c (by simp)
    simp only [parseU16Digits, hc, if_true, List.foldl_cons]
    by_cases hv : acc * 10 + (c.toNat - 48) ≤ 65535
    · rw [if_pos hv]
      exact ih _ hv (fun x hx => hdig x (by simp [hx]))
    · rw [if_neg hv]
      have hmono := digitsFoldl_mono cs (acc * 10 + (c.toNat - 48))
      rw [if_neg (by omega)]

theorem parseU16_eq {s : List Char} (hne : s ≠ [])
    (hdig : ∀ c ∈ s, c.isDigit = true) :
    parseU16 s = if digitsVal s ≤ 65535 then some (digitsVal s) else none := by
  match s, hne with
  | c :: cs, _ =>
    have h := parseU16Digits_eq (c :: cs) 0 (by omega) hdig
    simpa [parseU16, digitsVal] using h

theorem takeWhile_append_of_all {α : Type} (p : α → Bool) (l1 l2 : List α)
    (h : ∀ c ∈ l1, p c = true) :
    (l1 ++ l2).takeWhile p = l1 ++ l2.takeWhile p := by
  induction l1 with
  | nil => simp
  | cons a t ih =>
    simp only [List.cons_append, List.takeWhile_cons, h a (by simp), if_true,
      List.cons.injEq, true_and]
    exact ih (fun c hc => h c (by simp [hc]))

theorem countP_isSome_replicate_none {α : Type} (n : Nat) :
    ((List.replicate n (none : Option α)).countP (fun o => o.isSome)) = 0 := by
  induction n with
  | zero => simp
  | succ k ih => simp [List.replicate_succ, List.countP_cons, ih]

theorem runTakes_none {α : Type} (m : Nat) :
    runTakes (none : Option α) m = (List.replicate m none, none) := by
  induction m with
  | zero => simp [runTakes]
  | succ k ih => simp [runTakes, takeChild, ih, List.replicate_succ]

/-! ## Claim theorems -/

/-- C6: taking the child handle is a destructive read: starting from a
registry slot holding one child handle, the first take returns the handle
and every subsequent take observes absence, so across any sequence of takes
exactly one succeeds. -/
theorem claim_C6_take_destructive (α : Type) (h : α) (n : Nat) :
    (runTakes (some h) (n + 1)).1 = some h :: List.replicate n none ∧
    ((runTakes (some h) (n + 1)).1.countP (fun o => o.isSome)) = 1 := by
  have h1 : (runTakes (some h) (n + 1)).1 = some h :: List.replicate n none := by
    simp [runTakes, takeChild, runTakes_none n]
  refine ⟨h1, ?_⟩
  rw [h1]
  simp [List.countP_cons, countP_isSome_replicate_none]

/-- C6 witness: with one handle in the slot, three successive takes observe
the handle once and then absence. -/
theorem claim_C6_witness :
    (runTakes (some 7) 3).1 = [some 7, none, none] ∧
    ((runTakes (some (7 : Nat)) 3).1.countP (fun o => o.isSome)) = 1 := by
  have h := claim_C6_take_destructive Nat 7 2
  exact ⟨by simpa using h.1, h.2⟩

/-- C8: feeding the same line into the drain path twice is idempotent on the
registry: the port and token after two applications equal those after one. -/
theorem claim_C8_processLine_idempotent (info : EngineInfo) (l : List Char) :
    processLine (processLine info l) l = processLine info l := by
  unfold processLine
  cases hp : parse_port_from_line l <;>
    cases ht : parse_shutdown_token_from_line l <;>
      simp [hp, ht]

/-- C7: a line in which a marker is absent parses to nothing for that marker
and leaves the corresponding registry field unchanged. -/
theorem claim_C7_absent_marker_frame (info : EngineInfo) (l : List Char) :
    (¬ containsSub portNeedle l →
      parse_port_from_line l = none ∧ (processLine info l).port = info.port) ∧
    (¬ containsSub tokenNeedle l →
      parse_shutdown_token_from_line l = none ∧
      (processLine info l).shutdown_token = info.shutdown_token) := by
  constructor
  · intro h
    have hf : findSub l portNeedle = none := not_containsSub_findSub_none h
    have hp : parse_port_from_line l = none := by
      simp [parse_port_from_line, hf]
    refine ⟨hp, ?_⟩
    unfold processLine
    cases ht : parse_shutdown_token_from_line l <;> simp [hp, ht]
  · intro h
    have hf : findSub l tokenNeedle = none := not_containsSub_findSub_none h
    have ht : parse_shutdown_token_from_line l = none := by
      simp [parse_shutdown_token_from_line, hf]
    refine ⟨ht, ?_⟩
    unfold processLine
    cases hp : parse_port_from_line l <;> simp [hp, ht]

/-- C7 witness: the line `hello world` has neither marker, parses to nothing
and leaves a populated registry untouched. -/
theorem claim_C7_witness :
    parse_port_from_line ("hello world".toList) = none ∧
    (processLine ⟨some 1, some ['x']⟩ ("hello world".toList)).port = some 1 ∧
    parse_shutdown_token_from_line ("hello world".toList) = none ∧
    (processLine ⟨some 1, some ['x']⟩ ("hello world".toList)).shutdown_token = some ['x'] := by
  have h1 : ¬ containsSub portNeedle ("hello world".toList) :=
    not_containsSub_of_findSub_none (by decide)
  have h2 : ¬ containsSub tokenNeedle ("hello world".toList) :=
    not_containsSub_of_findSub_none (by decide)
  have hmain := claim_C7_absent_marker_frame ⟨some 1, some ['x']⟩ ("hello world".toList)
  obtain ⟨hp, hport⟩ := hmain.1 h1
  obtain ⟨ht, htok⟩ := hmain.2 h2
  exact ⟨hp, hport, ht, htok⟩

/-- C1: on a close trigger where a child handle was taken, the spawned
cleanup task does not kill the child exactly when port and token are both
present and the shutdown POST returns a 2xx status; on a missing port or
token, a non-2xx status, or a transport-level failure, it kills. -/
theorem claim_C1_graceful_or_kill (h : Nat) (info : EngineInfo) (net : Network) :
    (onDestroyed ⟨some h, info⟩ net).2 =
      [Action.cleanup (cleanupKilled net info.port info.shutdown_token)] ∧
    (cleanupKilled net info.port info.shutdown_token = false ↔
      ∃ p t s, info.port = some p ∧ info.shutdown_token = some t ∧
        net (shutdownUrl p) t = Except.ok s ∧ 200 ≤ s ∧ s < 300) := by
  constructor
  · simp [onDestroyed, takeChild]
  · cases hp : info.port with
    | none =>
      simp only [cleanupKilled]
      constructor
      · intro hh; simp at hh
      · rintro ⟨p, t, s', hps, _⟩; exact absurd hps (by simp)
    | some p =>
      cases ht : info.shutdown_token with
      | none =>
        simp only [cleanupKilled]
        constructor
        · intro hh; simp at hh
        · rintro ⟨p', t', s', hps, hts, _⟩; exact absurd hts (by simp)
      | some t =>
        cases hn : net (shutdownUrl p) t with
        | error e =>
          have hreq : request_engine_shutdown net p t = Except.error e := by
            unfold request_engine_shutdown
            rw [hn]
          simp only [cleanupKilled, hreq]
          constructor
          · intro hh; simp at hh
          · rintro ⟨p', t', s', hps, hts, hnet, _⟩
            obtain rfl : p' = p := by injection hps with hpp; omega
            obtain rfl : t' = t := by injection hts with htt; rw [htt]
            rw [hn] at hnet
            exact absurd hnet (by simp)
        | ok s' =>
          by_cases hs : 200 ≤ s' ∧ s' < 300
          · have hreq : request_engine_shutdown net p t = Except.ok () := by
              unfold request_engine_shutdown
              rw [hn]
              show (if 200 ≤ s' ∧ s' < 300 then (Except.ok () : Except String Unit)
                else Except.error ("shutdown returned HTTP " ++ toString s')) = Except.ok ()
              exact if_pos hs
            simp only [cleanupKilled, hreq]
            constructor
            · intro _; exact ⟨p, t, s', rfl, rfl, hn, hs.1, hs.2⟩
            · intro _; trivial
          · have hreq : request_engine_shutdown net p t =
                Except.error ("shutdown returned HTTP " ++ toString s') := by
              unfold request_engine_shutdown
              rw [hn]
              show (if 200 ≤ s' ∧ s' < 300 then (Except.ok () : Except String Unit)
                else Except.error ("shutdown returned HTTP " ++ toString s')) =
                Except.error ("shutdown returned HTTP " ++ toString s')
              exact if_neg hs
            simp only [cleanupKilled, hreq]
            constructor
            · intro hh; simp at hh
            · rintro ⟨p', t', s'', hps, hts, hnet, h1, h2⟩
              obtain rfl : p' = p := by injection hps with hpp; omega
              obtain rfl : t' = t := by injection hts with htt; rw [htt]
              rw [hn] at hnet
              obtain rfl : s'' = s' := by injection hnet with hss; omega
              exact absurd ⟨h1, h2⟩ hs

/-- C2 counterexample: the code's close handling does not implement the
latch-based protocol the claim describes. At a state with a child and full
shutdown info and a network answering 200, the code's handler emits only
the cleanup action, never the suppression or the re-issued close of the
latch protocol. -/
theorem claim_C2_counterexample :
    (onDestroyed ⟨some 1, ⟨some 9000, some ("deadbeef".toList)⟩⟩
        (fun _ _ => Except.ok 200)).2 = [Action.cleanup false] ∧
    (specOnCloseRequested ⟨false, some 1, ⟨some 9000, some ("deadbeef".toList)⟩⟩
        (fun _ _ => Except.ok 200)).2 =
      [Action.preventClose, Action.cleanup false, Action.requestClose] ∧
    (onDestroyed ⟨some 1, ⟨some 9000, some ("deadbeef".toList)⟩⟩
        (fun _ _ => Except.ok 200)).2 ≠
      (specOnCloseRequested ⟨false, some 1, ⟨some 9000, some ("deadbeef".toList)⟩⟩
        (fun _ _ => Except.ok 200)).2 := by
  refine ⟨?_, ?_, ?_⟩ <;> decide

/-- C2 as amended: there is no close latch; `EngineState` holds only the
child slot and the info record. Two consecutive close triggers from a state
holding a child execute cleanup exactly once — deduplicated by the
destructive take of the child handle — and the handler never suppresses or
re-issues a close. -/
theorem claim_C2_amended_take_dedup (h : Nat) (info : EngineInfo)
    (net1 net2 : Network) :
    (onDestroyed ⟨some h, info⟩ net1).2 =
      [Action.cleanup (cleanupKilled net1 info.port info.shutdown_token)] ∧
    (onDestroyed (onDestroyed ⟨some h, info⟩ net1).1 net2).2 = [] ∧
    (onDestroyed (onDestroyed ⟨some h, info⟩ net1).1 net2).1.child = none ∧
    ((onDestroyed ⟨some h, info⟩ net1).2 ++
      (onDestroyed (onDestroyed ⟨some h, info⟩ net1).1 net2).2).countP
        isCleanupAction = 1 := by
  simp [onDestroyed, takeChild, isCleanupAction, List.countP_cons]

/-- C9: any of the four fallible startup steps failing aborts startup with a
diagnostic, and only those; the close handler absorbs RPC and kill failures
and never aborts. -/
theorem claim_C9_fatal_only_at_startup (d : SetupDeps) (s : EngineState)
    (net : Network) (killRes : Except String Unit) :
    ((runSetup d).isOk =
      (d.app_data_dir.isOk && d.create_dir_all.isOk &&
        d.sidecar.isOk && d.spawn.isOk)) ∧
    (onDestroyedChecked s net killRes).isFatal = false := by
  constructor
  · unfold runSetup
    cases d.app_data_dir <;> cases d.create_dir_all <;>
      cases d.sidecar <;> cases d.spawn <;> simp [Except.isOk, Except.toBool]
  · unfold onDestroyedChecked
    cases s.child with
    | none => simp [HandlerResult.isFatal]
    | some c =>
      by_cases hk : cleanupKilled net s.info.port s.info.shutdown_token = true
      · simp only [hk, if_true]
        cases killRes <;> simp [HandlerResult.isFatal]
      · simp only [Bool.not_eq_true] at hk
        simp [hk, HandlerResult.isFatal]

/-- C3: port extraction yields nothing when the marker is absent; when the
marker is present, the maximal ASCII digit run after its first occurrence is
parsed as an unsigned 16-bit value — an empty run yields nothing, and a run
whose value exceeds 65535 yields nothing rather than a crash. -/
theorem claim_C3_port_extraction (l : List Char) :
    (¬ containsSub portNeedle l → parse_port_from_line l = none) ∧
    (∀ i, firstOccurAt portNeedle l i →
      ((l.drop (i + portNeedle.length)).takeWhile Char.isDigit = [] →
        parse_port_from_line l = none) ∧
      ((l.drop (i + portNeedle.length)).takeWhile Char.isDigit ≠ [] →
        digitsVal ((l.drop (i + portNeedle.length)).takeWhile Char.isDigit) ≤ 65535 →
        parse_port_from_line l =
          some (digitsVal ((l.drop (i + portNeedle.length)).takeWhile Char.isDigit))) ∧
      (65535 < digitsVal ((l.drop (i + portNeedle.length)).takeWhile Char.isDigit) →
        parse_port_from_line l = none)) := by
  constructor
  · intro h
    simp [parse_port_from_line, not_containsSub_findSub_none h]
  · intro i hfo
    have hf : findSub l portNeedle = some i := findSub_eq_some_of_firstOccurAt hfo
    have hparse : parse_port_from_line l =
        (if ((l.drop (i + portNeedle.length)).takeWhile Char.isDigit).isEmpty then none
         else parseU16 ((l.drop (i + portNeedle.length)).takeWhile Char.isDigit)) := by
      simp [parse_port_from_line, hf]
    have hdig : ∀ c ∈ (l.drop (i + portNeedle.length)).takeWhile Char.isDigit,
        c.isDigit = true := fun c hc => List.mem_takeWhile_imp hc
    refine ⟨?_, ?_, ?_⟩
    · intro hempty
      rw [hparse, if_pos (by simp [hempty])]
    · intro hne hle
      rw [hparse, if_neg (by simpa using hne), parseU16_eq hne hdig, if_pos hle]
    · intro hgt
      have hne : (l.drop (i + portNeedle.length)).takeWhile Char.isDigit ≠ [] := by
        intro hempty
        rw [hempty] at hgt
        simp [digitsVal] at hgt
      rw [hparse, if_neg (by simpa using hne), parseU16_eq hne hdig,
        if_neg (by omega)]

/-- C3 witness: a realistic log line whose digit run is `38471`. -/
theorem claim_C3_witness :
    firstOccurAt portNeedle
      ("engine listening on http://127.0.0.1:38471 for requests".toList) 20 ∧
    parse_port_from_line
      ("engine listening on http://127.0.0.1:38471 for requests".toList) = some 38471 := by
  have hfo : firstOccurAt portNeedle
      ("engine listening on http://127.0.0.1:38471 for requests".toList) 20 := by decide
  have h := ((claim_C3_port_extraction
    ("engine listening on http://127.0.0.1:38471 for requests".toList)).2 20 hfo).2.1
    (by decide) (by decide)
  refine ⟨hfo, ?_⟩
  rw [h]
  decide

/-- C4: token extraction returns the remainder of the line after the first
`shutdown_token=` with surrounding whitespace (including line endings)
trimmed; a remainder trimming to empty still yields a present (empty)
token; an absent marker yields nothing; and `shutdown_token=abc123` yields
exactly `abc123`. -/
theorem claim_C4_token_extraction (l : List Char) :
    (¬ containsSub tokenNeedle l → parse_shutdown_token_from_line l = none) ∧
    (∀ i, firstOccurAt tokenNeedle l i →
      parse_shutdown_token_from_line l =
        some (rustTrim (l.drop (i + tokenNeedle.length))) ∧
      (rustTrim (l.drop (i + tokenNeedle.length)) = [] →
        parse_shutdown_token_from_line l = some [])) ∧
    parse_shutdown_token_from_line ("shutdown_token=abc123".toList) =
      some ("abc123".toList) ∧
    parse_shutdown_token_from_line ("shutdown_token=abc123\n".toList) =
      some ("abc123".toList) := by
  refine ⟨?_, ?_, by decide, by decide⟩
  · intro h
    simp [parse_shutdown_token_from_line, not_containsSub_findSub_none h]
  · intro i hfo
    have hf : findSub l tokenNeedle = some i := findSub_eq_some_of_firstOccurAt hfo
    have hmain : parse_shutdown_token_from_line l =
        some (rustTrim (l.drop (i + tokenNeedle.length))) := by
      simp [parse_shutdown_token_from_line, hf]
    exact ⟨hmain, fun hempty => by rw [hmain, hempty]⟩

/-- C4 witness: the token marker at position 1, with surrounding blanks and
a trailing newline trimmed away. -/
theorem claim_C4_witness :
    firstOccurAt tokenNeedle (" shutdown_token=  tok \n".toList) 1 ∧
    parse_shutdown_token_from_line (" shutdown_token=  tok \n".toList) =
      some ("tok".toList) := by
  have hfo : firstOccurAt tokenNeedle (" shutdown_token=  tok \n".toList) 1 := by decide
  have h := ((claim_C4_token_extraction (" shutdown_token=  tok \n".toList)).2.1 1 hfo).1
  refine ⟨hfo, ?_⟩
  rw [h]
  decide

/-- C5 counterexample: the line `http://127.0.0.1:384711` contains the
substring `http://127.0.0.1:38471`, yet the extractor yields no port at all
(the maximal digit run `384711` overflows the 16-bit range), refuting the
claim that every line containing that substring yields port 38471. -/
theorem claim_C5_counterexample :
    containsSub ("http://127.0.0.1:38471".toList) ("http://127.0.0.1:384711".toList) ∧
    parse_port_from_line ("http://127.0.0.1:384711".toList) = none := by
  exact ⟨⟨0, by decide⟩, by decide⟩

/-- C5 as amended: a line containing `http://127.0.0.1:38471` yields port
38471 provided the port marker does not occur earlier in the line and the
digit run is not extended by a digit immediately after `38471`. -/
theorem claim_C5_amended (pre suf : List Char)
    (hpre : ∀ j < pre.length,
      ¬ occursAt portNeedle (pre ++ "http://127.0.0.1:38471".toList ++ suf) j)
    (hsuf : ∀ c ∈ suf.take 1, c.isDigit = false) :
    parse_port_from_line (pre ++ "http://127.0.0.1:38471".toList ++ suf) =
      some 38471 := by
  have hsplit : "http://127.0.0.1:38471".toList = portNeedle ++ "38471".toList := by decide
  have hassoc : pre ++ "http://127.0.0.1:38471".toList ++ suf =
      (pre ++ portNeedle) ++ ("38471".toList ++ suf) := by
    rw [hsplit]
    simp [List.append_assoc]
  have hdrop : (pre ++ "http://127.0.0.1:38471".toList ++ suf).drop
      (pre.length + portNeedle.length) = "38471".toList ++ suf := by
    rw [hassoc]
    have hlen : (pre ++ portNeedle).length = pre.length + portNeedle.length := by simp
    rw [← hlen, List.drop_left]
  have hocc : occursAt portNeedle
      (pre ++ "http://127.0.0.1:38471".toList ++ suf) pre.length := by
    unfold occursAt
    have hdrop0 : (pre ++ "http://127.0.0.1:38471".toList ++ suf).drop pre.length =
        portNeedle ++ ("38471".toList ++ suf) := by
      rw [hassoc, List.append_assoc, List.drop_left]
    rw [hdrop0]
    exact (isPrefixOf_iff_exists_append _ _).mpr ⟨_, rfl⟩
  have hfo : firstOccurAt portNeedle
      (pre ++ "http://127.0.0.1:38471".toList ++ suf) pre.length := ⟨hocc, hpre⟩
  have hf := findSub_eq_some_of_firstOccurAt hfo
  have hrun : ((pre ++ "http://127.0.0.1:38471".toList ++ suf).drop
      (pre.length + portNeedle.length)).takeWhile Char.isDigit = "38471".toList := by
    rw [hdrop, takeWhile_append_of_all Char.isDigit ("38471".toList) suf (by decide)]
    cases hsf : suf with
    | nil => simp
    | cons c r =>
      have hcd : c.isDigit = false := hsuf c (by simp [hsf])
      simp [List.takeWhile_cons, hcd]
  simp only [parse_port_from_line, hf, hrun]
  decide

/-- C5 witness: the amended statement at a realistic log line. -/
theorem claim_C5_witness :
    parse_port_from_line ("engine listening on ".toList ++
      "http://127.0.0.1:38471".toList ++ " for requests".toList) = some 38471 := by
  exact claim_C5_amended ("engine listening on ".toList) (" for requests".toList)
    (by decide) (by decide)

/-- C10: on every structurally valid UTF-8 line — which includes every valid
UTF-8 line — both extractors return normally: the byte index at which each
one slices (`find` position plus the ASCII needle's byte length) is always a
character boundary, so the modelled panic case never occurs. -/
theorem claim_C10_no_panic (l : List Nat) (hv : validUTF8 l = true) :
    (parsePortBytes l).isSome = true ∧ (parseTokenBytes l).isSome = true := by
  constructor
  · unfold parsePortBytes
    cases hf : findSub l portNeedleBytes with
    | none => simp
    | some i =>
      have hp := findSub_some_isPrefixOf hf
      have hb : isCharBoundary l (i + portNeedleBytes.length) = true :=
        boundary_after_ascii_needle hv hp (by decide)
          (fun b hbe => by
            rw [show portNeedleBytes[portNeedleBytes.length - 1]? = some 58 from by decide]
              at hbe
            injection hbe with hbe
            omega)
      simp [sliceFrom, hb]
  · unfold parseTokenBytes
    cases hf : findSub l tokenNeedleBytes with
    | none => simp
    | some i =>
      have hp := findSub_some_isPrefixOf hf
      have hb : isCharBoundary l (i + tokenNeedleBytes.length) = true :=
        boundary_after_ascii_needle hv hp (by decide)
          (fun b hbe => by
            rw [show tokenNeedleBytes[tokenNeedleBytes.length - 1]? = some 61 from by decide]
              at hbe
            injection hbe with hbe
            omega)
      simp [sliceFrom, hb]

/-- C10 witness: a valid UTF-8 line with multibyte characters adjacent to
both markers is processed by both extractors without hitting the panic
case. -/
theorem claim_C10_witness :
    validUTF8 c10WitnessLine = true ∧
    ((parsePortBytes c10WitnessLine).isSome = true ∧
      (parseTokenBytes c10WitnessLine).isSome = true) := by
  have hval : validUTF8 c10WitnessLine = true := by decide
  exact ⟨hval, claim_C10_no_panic c10WitnessLine hval⟩

end JobHunt
